import Mathlib

/-!
Verification development for the prompt-chain element
(`chain/__init__.py` of the elements repository).

The Python executor `main`, the backend dispatcher `call_llm`, the prompt
formatter `format_prompt` and the settings surface of the element are
shallowly embedded below.  Python dictionaries are modelled as association
lists with Python `dict` insertion semantics (an existing key is updated in
place, a new key is appended); Python values appearing in a frame's
`other_data` are modelled by the inductive type `PyVal`.  The single mutable
list `step_outputs` that the executor shares between all emitted frames is
modelled by the reference constructor `PyVal.histRef`: every emitted frame
stores this reference under `"chain_history"`, and resolving the reference
after the run yields the final state of the list, exactly as dereferencing
the aliased Python list object would.  Python floats (only the sampling
temperature, which the model never uses to branch) are modelled as rationals.
-/

set_option autoImplicit false

namespace Chain

/-- A Python value stored in a frame's `other_data` mapping.  `histRef` is
the reference to the executor's shared `step_outputs` list object. -/
inductive PyVal where
  | str : String → PyVal
  | int : Int → PyVal
  | bool : Bool → PyVal
  | none : PyVal
  | list : List PyVal → PyVal
  | dict : List (String × PyVal) → PyVal
  | histRef : PyVal

mutual

/-- Python `repr` of a value (used by `str()` on containers).  Strings are
rendered with single quotes; escaping of quotes inside strings is not
modelled (no claim exercises it). -/
def pyRepr : PyVal → String
  | PyVal.str s => "\x27" ++ s ++ "\x27"
  | PyVal.int n => toString n
  | PyVal.bool b => if b then "True" else "False"
  | PyVal.none => "None"
  | PyVal.list xs => "[" ++ pyReprJoin xs ++ "]"
  | PyVal.dict m => "\x7b" ++ pyReprDict m ++ "\x7d"
  | PyVal.histRef => ""

def pyReprJoin : List PyVal → String
  | [] => ""
  | [x] => pyRepr x
  | x :: xs => pyRepr x ++ ", " ++ pyReprJoin xs

def pyReprDict : List (String × PyVal) → String
  | [] => ""
  | [(k, v)] => "\x27" ++ k ++ "\x27: " ++ pyRepr v
  | (k, v) :: kvs => "\x27" ++ k ++ "\x27: " ++ pyRepr v ++ ", " ++ pyReprDict kvs

end

/-- Python `str()` of a value. -/
def pyStr : PyVal → String
  | PyVal.str s => s
  | v => pyRepr v

/-- Lookup in a Python dict (modelled as an association list with unique
keys maintained by `dinsert`). -/
def dlookup : List (String × PyVal) → String → Option PyVal
  | [], _ => Option.none
  | (k2, v) :: rest, k => if k2 = k then some v else dlookup rest k

/-- Python dict assignment `d[k] = v`: updates an existing key in place,
appends a fresh key at the end. -/
def dinsert : List (String × PyVal) → String → PyVal → List (String × PyVal)
  | [], k, v => [(k, v)]
  | (k2, v2) :: rest, k, v =>
    if k2 = k then (k, v) :: rest else (k2, v2) :: dinsert rest k v

/-- Python `d.update(kvs)`. -/
def dupdate (d : List (String × PyVal)) (kvs : List (String × PyVal)) :
    List (String × PyVal) :=
  kvs.foldl (fun acc kv => dinsert acc kv.1 kv.2) d

/-- A frame.  The structural fields (`ndframe`, `rois`, `color_space`,
`frame_id`, `headers`) are copied by reference by the executor and never
inspected, so they are modelled as opaque identity tokens. -/
structure Frame where
  ndframe : Nat
  rois : Nat
  color_space : Nat
  frame_id : Nat
  headers : Nat
  other_data : List (String × PyVal)

/-- The element's output channels: `step1` .. `step10` and `final`. -/
inductive Channel where
  | step : Nat → Channel
  | final : Channel
deriving DecidableEq

/-- One entry of the executor's `step_outputs` list
(`{"step": ..., "prompt": ..., "output": ..., "model": ...}`). -/
structure StepRecord where
  step : Nat
  prompt : String
  output : String
  model : String
deriving DecidableEq

/-- One `yield` of the executor.  `histAtEmit` is semantic instrumentation:
the value of the shared `step_outputs` list at the moment of the yield
(the frame itself only stores the reference `PyVal.histRef`). -/
structure Emission where
  channel : Channel
  frame : Frame
  histAtEmit : List StepRecord

/-- The exceptions the executor can raise:  `noneFrame` is the
`Exception("Unexpected None frame input.")`, `emptyInput` the
`ValueError("No input text provided for chain")`, `typeError` the `TypeError`
Python raises when a multimodal text part carries a non-string `"text"`. -/
inductive ChainErr where
  | noneFrame : ChainErr
  | typeError : ChainErr
  | emptyInput : ChainErr
deriving DecidableEq

/-- Result of one invocation of the executor.  `emissions` are the frames
yielded before returning or raising; `outcome` is normal completion or the
propagated exception; `history` is the final state of the shared
`step_outputs` list, and `input_text` the extracted input text (both are
semantic instrumentation used to state properties). -/
structure RunResult where
  emissions : List Emission
  outcome : Except ChainErr Unit
  history : List StepRecord
  input_text : String

/-- Outcome of one hosted-provider call, as seen at the `call_llm` dispatch
site: a successful response whose content may be missing (`ok`), a missing
provider package (`importError`), or any other raised exception (`exn`). -/
inductive ProviderOutcome where
  | ok : Option String → ProviderOutcome
  | importError : ProviderOutcome
  | exn : String → ProviderOutcome
deriving DecidableEq

def ProviderOutcome.isFailure : ProviderOutcome → Bool
  | ProviderOutcome.ok _ => false
  | ProviderOutcome.importError => true
  | ProviderOutcome.exn _ => true

/-- The element's settings surface, exactly the attributes declared on the
`Settings` class: `num_steps`, full per-step configuration for steps 1-3,
and only `prompt`/`model` for steps 4 and 5.  No attribute exists for steps
6-10.  Temperatures are Python floats, modelled as rationals. -/
structure Settings where
  num_steps : Nat
  step1_prompt : String
  step1_model : String
  step1_api_key : String
  step1_temperature : Rat
  step2_prompt : String
  step2_model : String
  step2_api_key : String
  step2_temperature : Rat
  step3_prompt : String
  step3_model : String
  step3_api_key : String
  step3_temperature : Rat
  step4_prompt : String
  step4_model : String
  step5_prompt : String
  step5_model : String

/-- Embeds `getattr(ctx.settings, f"step{i}_prompt", None)`: the `Settings` class
declares a prompt setting only for steps 1-5. -/
def step_prompt (s : Settings) : Nat → Option String
  | 1 => some s.step1_prompt
  | 2 => some s.step2_prompt
  | 3 => some s.step3_prompt
  | 4 => some s.step4_prompt
  | 5 => some s.step5_prompt
  | _ => Option.none

/-- Embeds `getattr(ctx.settings, f"step{i}_model", None)`: declared for steps 1-5. -/
def step_model (s : Settings) : Nat → Option String
  | 1 => some s.step1_model
  | 2 => some s.step2_model
  | 3 => some s.step3_model
  | 4 => some s.step4_model
  | 5 => some s.step5_model
  | _ => Option.none

/-- Embeds `getattr(ctx.settings, f"step{i}_api_key", None)`: declared only for
steps 1-3. -/
def step_api_key (s : Settings) : Nat → Option String
  | 1 => some s.step1_api_key
  | 2 => some s.step2_api_key
  | 3 => some s.step3_api_key
  | _ => Option.none

/-- Embeds `getattr(ctx.settings, f"step{i}_temperature", None)`: declared only for
steps 1-3. -/
def step_temperature (s : Settings) : Nat → Option Rat
  | 1 => some s.step1_temperature
  | 2 => some s.step2_temperature
  | 3 => some s.step3_temperature
  | _ => Option.none

/-- Embeds `model.value if model else "local"`. -/
def resolve_model (s : Settings) (i : Nat) : String :=
  (step_model s i).getD "local"

/-- Embeds `api_key_setting.value if api_key_setting else ""`. -/
def resolve_api_key (s : Settings) (i : Nat) : String :=
  (step_api_key s i).getD ""

/-- Embeds `temp_setting.value if temp_setting else 0.7`. -/
def resolve_temperature (s : Settings) (i : Nat) : Rat :=
  (step_temperature s i).getD (7 / 10)

/-- The loop-entry guard `if not prompt_template or not prompt_template.value`
inverted: a step is configured when its prompt setting exists and is
non-empty. -/
def isConfiguredB (s : Settings) (i : Nat) : Bool :=
  match step_prompt s i with
  | some pt => if pt = "" then false else true
  | Option.none => false

/-- First occurrence of `pat` in a character list: `some (pre, post)` with
the list equal to `pre ++ pat ++ post`, or `none` when `pat` does not occur. -/
def splitOnce (pat : List Char) : List Char → Option (List Char × List Char)
  | [] => if pat = [] then some ([], []) else Option.none
  | c :: rest =>
    if pat.isPrefixOf (c :: rest) then
      some ([], List.drop pat.length (c :: rest))
    else
      match splitOnce pat rest with
      | some (pre, post) => some (c :: pre, post)
      | Option.none => Option.none

/-- Left-to-right non-overlapping replacement, driven by a fuel counter so
that it is structurally recursive (any fuel at least the length of the list
is enough, since each replacement consumes at least one character of a
non-empty pattern). -/
def replaceLoop (pat rep : List Char) : Nat → List Char → List Char
  | 0, s => s
  | Nat.succ fuel, s =>
    match splitOnce pat s with
    | some (pre, post) => pre ++ rep ++ replaceLoop pat rep fuel post
    | Option.none => s

/-- Python `s.replace(pat, rep)` for a non-empty `pat` (the source only ever
replaces the two fixed non-empty placeholder tokens): every non-overlapping
occurrence of `pat`, scanned left to right, is replaced by `rep`. -/
def pyReplace (s pat rep : String) : String :=
  if pat = "" then s
  else String.mk (replaceLoop pat.toList rep.toList s.toList.length s.toList)

/-- Python `s.strip()`: leading and trailing whitespace removed. -/
def pyStrip (s : String) : String :=
  String.mk
    (((s.toList.dropWhile Char.isWhitespace).reverse.dropWhile
      Char.isWhitespace).reverse)

/-- Embeds `call_llm` of the source: dispatches to a backend and normalises the
result.  `outcome` is what the provider call produced at this dispatch site
(success with optional content, missing package, or a raised exception);
both failure shapes are caught and converted to the empty string. -/
def call_llm (prompt model api_key : String) (temperature : Rat)
    (outcome : ProviderOutcome) : String :=
  if model = "local" then ""
  else if model = "openai" then
    match outcome with
    | ProviderOutcome.ok content => content.getD ""
    | ProviderOutcome.importError => ""
    | ProviderOutcome.exn _ => ""
  else if model = "anthropic" then
    match outcome with
    | ProviderOutcome.ok content => content.getD ""
    | ProviderOutcome.importError => ""
    | ProviderOutcome.exn _ => ""
  else ""

/-- Embeds `format_prompt` of the source.  The Python truthiness test
`if previous_output:` is unfolded: `None` and `""` take the else branch. -/
def format_prompt (template input_text : String)
    (previous_output : Option String) : String :=
  let prompt := pyReplace template "{input}" input_text
  match previous_output with
  | some p =>
    if p = "" then pyReplace prompt "{previous}" input_text
    else pyReplace prompt "{previous}" p
  | Option.none => pyReplace prompt "{previous}" input_text

/-- Embeds `f"[Step {step_num} output - requires LLM element]"`. -/
def localMarker (i : Nat) : String :=
  "[Step " ++ toString i ++ " output - requires LLM element]"

/-- Embeds `f"[Step {step_num} - no output]"`. -/
def noOutputMarker (i : Nat) : String :=
  "[Step " ++ toString i ++ " - no output]"

/-- The step-output computation of the loop body: the local backend is
short-circuited to its placeholder marker; otherwise `call_llm` is invoked
and an empty result is replaced by the no-output marker. -/
def stepOutput (s : Settings) (pr : Nat → ProviderOutcome) (i : Nat)
    (prompt : String) : String :=
  if resolve_model s i = "local" then localMarker i
  else
    let out := call_llm prompt (resolve_model s i) (resolve_api_key s i)
      (resolve_temperature s i) (pr i)
    if out = "" then noOutputMarker i else out

/-- The overlay merged into a step frame's copied `other_data`. -/
def stepOverlay (i : Nat) (out prompt model : String) :
    List (String × PyVal) :=
  [("chain_step", PyVal.int i),
   ("chain_output", PyVal.str out),
   ("chain_prompt", PyVal.str prompt),
   ("chain_model", PyVal.str model),
   ("chain_history", PyVal.histRef)]

/-- The overlay merged into the final frame's copied `other_data`. -/
def finalOverlay (num_steps : Nat) (final_output : String) :
    List (String × PyVal) :=
  [("chain_final_output", PyVal.str final_output),
   ("chain_steps", PyVal.int num_steps),
   ("chain_history", PyVal.histRef),
   ("chain_complete", PyVal.bool true)]

/-- Build an emitted frame: structural fields copied by reference,
`other_data` shallow-copied and updated with the overlay. -/
def projectFrame (f : Frame) (overlay : List (String × PyVal)) : Frame :=
  Frame.mk f.ndframe f.rois f.color_space f.frame_id f.headers
    (dupdate f.other_data overlay)

def mkStepFrame (f : Frame) (i : Nat) (out prompt model : String) : Frame :=
  projectFrame f (stepOverlay i out prompt model)

/-- Python `previous_output or input_text`. -/
def pyOrStr (prev : Option String) (input_text : String) : String :=
  match prev with
  | some p => if p = "" then input_text else p
  | Option.none => input_text

/-- State carried out of the step loop. -/
structure LoopOut where
  ems : List Emission
  hist : List StepRecord
  prev : Option String

/-- The `step_outputs` entry appended by one completed loop iteration:
prompt from `format_prompt(template, current_input, previous_output)`,
output from the local-marker / dispatcher branch, model from the resolver. -/
def stepRecordOf (s : Settings) (pr : Nat → ProviderOutcome) (i : Nat)
    (pt : String) (prev : Option String) (cur : String) : StepRecord :=
  StepRecord.mk i (format_prompt pt cur prev)
    (stepOutput s pr i (format_prompt pt cur prev)) (resolve_model s i)

/-- The frame yielded for one completed step, with the history value at the
moment of the yield. -/
def stepEmission (f : Frame) (rc : StepRecord)
    (hist2 : List StepRecord) : Emission :=
  Emission.mk (Channel.step rc.step)
    (mkStepFrame f rc.step rc.output rc.prompt rc.model) hist2

/-- The `for step_num in range(1, num_steps + 1)` loop of the executor.
First `Nat` argument is the remaining iteration count, second the current
step number.  `hist` is the shared `step_outputs` list, `ems` the frames
yielded so far.  An unconfigured step (`break`) returns immediately; a
completed step appends its record, yields its frame when the output channel
attribute `step{i}` exists (steps 1-10), and feeds its output into both
`previous_output` and `current_input`. -/
def chainLoop (f : Frame) (s : Settings) (pr : Nat → ProviderOutcome) :
    Nat → Nat → Option String → String → List StepRecord → List Emission →
    LoopOut
  | 0, _, prev, _, hist, ems => LoopOut.mk ems hist prev
  | Nat.succ r, i, prev, cur, hist, ems =>
    match step_prompt s i with
    | Option.none => LoopOut.mk ems hist prev
    | some pt =>
      if pt = "" then LoopOut.mk ems hist prev
      else
        chainLoop f s pr r (i + 1)
          (some (stepRecordOf s pr i pt prev cur).output)
          (stepRecordOf s pr i pt prev cur).output
          (hist ++ [stepRecordOf s pr i pt prev cur])
          (if 1 ≤ i ∧ i ≤ 10 then
            ems ++ [stepEmission f (stepRecordOf s pr i pt prev cur)
              (hist ++ [stepRecordOf s pr i pt prev cur])]
          else ems)

/-- Python `v == s` for an optional value against a string literal: true
exactly when the value is that string. -/
def isStrEq (v : Option PyVal) (s : String) : Bool :=
  match v with
  | some (PyVal.str t) => if t = s then true else false
  | _ => false

/-- Concatenation of user-role text parts of one multimodal content list
(`item.get("text", "") + " "`; a non-string `"text"` value makes the Python
`+` raise `TypeError`). -/
def collectTextItems : List PyVal → String → Except Unit String
  | [], acc => Except.ok acc
  | item :: rest, acc =>
    match item with
    | PyVal.dict im =>
      if isStrEq (dlookup im "type") "text" then
        match (dlookup im "text").getD (PyVal.str "") with
        | PyVal.str t => collectTextItems rest (acc ++ t ++ " ")
        | _ => Except.error ()
      else collectTextItems rest acc
    | _ => collectTextItems rest acc

/-- The `for msg in api_messages` extraction loop: user-role messages
contribute their string content, or the text parts of their content list. -/
def collectUserText : List PyVal → String → Except Unit String
  | [], acc => Except.ok acc
  | msg :: rest, acc =>
    match msg with
    | PyVal.dict m =>
      if isStrEq (dlookup m "role") "user" then
        match (dlookup m "content").getD (PyVal.str "") with
        | PyVal.str c => collectUserText rest (acc ++ c ++ " ")
        | PyVal.list items =>
          match collectTextItems items acc with
          | Except.ok acc2 => collectUserText rest acc2
          | Except.error e => Except.error e
        | _ => collectUserText rest acc
      else collectUserText rest acc
    | _ => collectUserText rest acc

/-- Input-text extraction of the executor: a direct `"message"` field first
(via `str()`), else the `"api"` message list, else empty. -/
def extract_input_text (od : List (String × PyVal)) : Except Unit String :=
  match dlookup od "message" with
  | some v => Except.ok (pyStr v)
  | Option.none =>
    match dlookup od "api" with
    | some (PyVal.list msgs) => collectUserText msgs ""
    | some _ => Except.ok ""
    | Option.none => Except.ok ""

/-- The executor `main`.  Validation failures raise before any yield, so
they carry no emissions; a successful run yields the step frames followed by
exactly one final frame.  The final frame stores the same `histRef` that all
step frames store. -/
def chain_main (s : Settings) (pr : Nat → ProviderOutcome)
    (frame : Option Frame) : RunResult :=
  match frame with
  | Option.none => RunResult.mk [] (Except.error ChainErr.noneFrame) [] ""
  | some f =>
    match extract_input_text f.other_data with
    | Except.error _ => RunResult.mk [] (Except.error ChainErr.typeError) [] ""
    | Except.ok input_text =>
      if pyStrip input_text = "" then
        RunResult.mk [] (Except.error ChainErr.emptyInput) [] input_text
      else
        RunResult.mk
          ((chainLoop f s pr s.num_steps 1 Option.none input_text [] []).ems
            ++ [Emission.mk Channel.final
              (projectFrame f (finalOverlay s.num_steps
                (pyOrStr
                  (chainLoop f s pr s.num_steps 1 Option.none
                    input_text [] []).prev input_text)))
              (chainLoop f s pr s.num_steps 1 Option.none
                input_text [] []).hist])
          (Except.ok ())
          (chainLoop f s pr s.num_steps 1 Option.none input_text [] []).hist
          input_text

/-! ### Observation helpers -/

/-- The channels of a run's emissions, in order. -/
def emissionChannels (res : RunResult) : List Channel :=
  res.emissions.map Emission.channel

/-- The `other_data` entry of the `idx`-th emitted frame at key `k`. -/
def emissionData (res : RunResult) (idx : Nat) (k : String) : Option PyVal :=
  match res.emissions.get? idx with
  | some e => dlookup e.frame.other_data k
  | Option.none => Option.none

/-- The history a consumer observes on the `idx`-th emitted frame after the
run has finished: the stored `histRef` dereferences to the final state of
the shared `step_outputs` list. -/
def observedHistory (res : RunResult) (idx : Nat) :
    Option (List StepRecord) :=
  match res.emissions.get? idx with
  | some e =>
    match dlookup e.frame.other_data "chain_history" with
    | some PyVal.histRef => some res.history
    | _ => Option.none
  | Option.none => Option.none

/-- The length of the shared history at the moment the `idx`-th frame was
emitted. -/
def emitTimeHistLen (res : RunResult) (idx : Nat) : Option Nat :=
  (res.emissions.get? idx).map (fun e => e.histAtEmit.length)

/-- Builds `[Channel.step a, Channel.step (a+1), ..., Channel.step (a+n-1)]`. -/
def chanSeq : Nat → Nat → List Channel
  | _, 0 => []
  | a, Nat.succ n => Channel.step a :: chanSeq (a + 1) n

/-- The number of consecutive configured steps starting at `a` within `r`
remaining iterations: the number of loop iterations that complete. -/
def completedFrom (s : Settings) : Nat → Nat → Nat
  | _, 0 => 0
  | a, Nat.succ r => if isConfiguredB s a then completedFrom s (a + 1) r + 1 else 0

/-- The output of the last record of `l`, or `d` if `l` is empty
(tracks the evolution of `previous_output`). -/
def lastOutput (l : List StepRecord) (d : Option String) : Option String :=
  match l.getLast? with
  | some r => some r.output
  | Option.none => d

/-- The chain's final output as the source computes it:
`previous_output or input_text`. -/
def lastOutputStr (l : List StepRecord) (input_text : String) : String :=
  match l.getLast? with
  | some r => r.output
  | Option.none => input_text

/-- The overlay keys of a channel's frames. -/
def overlayKeys : Channel → List String
  | Channel.step _ =>
    ["chain_step", "chain_output", "chain_prompt", "chain_model",
     "chain_history"]
  | Channel.final =>
    ["chain_final_output", "chain_steps", "chain_history", "chain_complete"]

/-- The overlay keys of the `idx`-th emission of a run. -/
def overlayKeysAt (res : RunResult) (idx : Nat) : List String :=
  match res.emissions.get? idx with
  | some e => overlayKeys e.channel
  | Option.none => []

/-- The output text of the `idx`-th history record. -/
def historyOutput (res : RunResult) (idx : Nat) : Option String :=
  (res.history.get? idx).map StepRecord.output

/-- The model of the `idx`-th history record. -/
def historyModel (res : RunResult) (idx : Nat) : Option String :=
  (res.history.get? idx).map StepRecord.model

/-- Whether every overlay key of the `idx`-th emission is present in its
frame's side-channel data. -/
def overlayPresentB (res : RunResult) (idx : Nat) : Bool :=
  (overlayKeysAt res idx).all (fun k2 => (emissionData res idx k2).isSome)

/-! ### Concrete instances used by the witnesses -/

/-- A two-step all-local configuration (prompts are the element defaults). -/
def wSettings2 : Settings :=
  Settings.mk 2
    "Process the following: {input}" "local" "" (7 / 10)
    "Continue with: {previous}" "local" "" (7 / 10)
    "Continue with: {previous}" "local" "" (7 / 10)
    "Continue with: {previous}" "local"
    "Continue with: {previous}" "local"

/-- Scenario A: one step, local backend. -/
def wSettings1 : Settings :=
  Settings.mk 1
    "Process the following: {input}" "local" "" (7 / 10)
    "Continue with: {previous}" "local" "" (7 / 10)
    "Continue with: {previous}" "local" "" (7 / 10)
    "Continue with: {previous}" "local"
    "Continue with: {previous}" "local"

/-- Scenario B: three steps requested but step 2's prompt is unset. -/
def wSettingsB : Settings :=
  Settings.mk 3
    "Process the following: {input}" "local" "" (7 / 10)
    "" "local" "" (7 / 10)
    "Continue with: {previous}" "local" "" (7 / 10)
    "Continue with: {previous}" "local"
    "Continue with: {previous}" "local"

/-- Five configured steps. -/
def wSettings5 : Settings :=
  Settings.mk 5
    "Process the following: {input}" "local" "" (7 / 10)
    "Continue with: {previous}" "local" "" (7 / 10)
    "Continue with: {previous}" "local" "" (7 / 10)
    "Continue with: {previous}" "local"
    "Continue with: {previous}" "local"

/-- Six steps requested: more than the settings surface can configure. -/
def wSettings6 : Settings :=
  Settings.mk 6
    "Process the following: {input}" "local" "" (7 / 10)
    "Continue with: {previous}" "local" "" (7 / 10)
    "Continue with: {previous}" "local" "" (7 / 10)
    "Continue with: {previous}" "local"
    "Continue with: {previous}" "local"

/-- Two steps with a hosted provider on step 1. -/
def wSettingsFail : Settings :=
  Settings.mk 2
    "Process the following: {input}" "openai" "sk-key" (7 / 10)
    "Continue with: {previous}" "local" "" (7 / 10)
    "Continue with: {previous}" "local" "" (7 / 10)
    "Continue with: {previous}" "local"
    "Continue with: {previous}" "local"

/-- An input frame with a direct message and one unrelated key. -/
def wFrame : Frame :=
  Frame.mk 0 0 0 0 0
    [("message", PyVal.str "Hello"), ("extra", PyVal.int 5)]

/-- An input frame whose message is whitespace only. -/
def wFrameBlank : Frame :=
  Frame.mk 0 0 0 0 0 [("message", PyVal.str "  ")]

/-- A provider that always answers. -/
def wProviderOk : Nat → ProviderOutcome :=
  fun _ => ProviderOutcome.ok (some "resp")

/-- A provider whose step-1 call raises. -/
def wProviderFail : Nat → ProviderOutcome :=
  fun i => if i = 1 then ProviderOutcome.exn "boom"
    else ProviderOutcome.ok (some "resp")

/-! ### Dictionary lemmas -/

lemma dlookup_dinsert_self (d : List (String × PyVal)) (k : String)
    (v : PyVal) : dlookup (dinsert d k v) k = some v := by
  induction d with
  | nil => simp [dinsert, dlookup]
  | cons kv rest ih =>
    obtain ⟨k2, v2⟩ := kv
    by_cases h : k2 = k
    · simp [dinsert, h, dlookup]
    · simp [dinsert, h, dlookup, ih]

lemma dlookup_dinsert_other (d : List (String × PyVal)) (k k2 : String)
    (v : PyVal) (h : k2 ≠ k) :
    dlookup (dinsert d k v) k2 = dlookup d k2 := by
  induction d with
  | nil => simp [dinsert, dlookup, Ne.symm h]
  | cons kv rest ih =>
    obtain ⟨k3, v3⟩ := kv
    by_cases h3 : k3 = k
    · subst h3
      simp [dinsert, dlookup, Ne.symm h]
    · rw [show dinsert ((k3, v3) :: rest) k v = (k3, v3) :: dinsert rest k v
        from by simp [dinsert, h3]]
      simp [dlookup, ih]

lemma dlookup_dinsert_isSome (d : List (String × PyVal)) (k k2 : String)
    (v : PyVal) (h : (dlookup d k2).isSome = true) :
    (dlookup (dinsert d k v) k2).isSome = true := by
  by_cases hk : k2 = k
  · subst hk; simp [dlookup_dinsert_self]
  · rwa [dlookup_dinsert_other d k k2 v hk]

lemma dupdate_nil (d : List (String × PyVal)) : dupdate d [] = d := rfl

lemma dupdate_cons (d : List (String × PyVal)) (kv : String × PyVal)
    (kvs : List (String × PyVal)) :
    dupdate d (kv :: kvs) = dupdate (dinsert d kv.1 kv.2) kvs := rfl

lemma dlookup_dupdate_not_mem (kvs : List (String × PyVal)) :
    ∀ (d : List (String × PyVal)) (k : String),
    k ∉ kvs.map Prod.fst → dlookup (dupdate d kvs) k = dlookup d k := by
  induction kvs with
  | nil => intro d k _; rfl
  | cons kv rest ih =>
    intro d k hk
    simp only [List.map_cons, List.mem_cons] at hk
    push_neg at hk
    rw [dupdate_cons, ih _ _ hk.2, dlookup_dinsert_other _ _ _ _ hk.1]

lemma dlookup_dupdate_isSome (kvs : List (String × PyVal)) :
    ∀ (d : List (String × PyVal)) (k : String),
    (dlookup d k).isSome = true → (dlookup (dupdate d kvs) k).isSome = true := by
  induction kvs with
  | nil => intro d k h; exact h
  | cons kv rest ih =>
    intro d k h
    rw [dupdate_cons]
    exact ih _ _ (dlookup_dinsert_isSome _ _ _ _ h)

/-! ### Marker and dispatcher lemmas -/

lemma localMarker_ne_empty (i : Nat) : localMarker i ≠ "" := by
  intro h
  have h2 := congrArg String.data h
  simp [localMarker, String.data_append] at h2

lemma noOutputMarker_ne_empty (i : Nat) : noOutputMarker i ≠ "" := by
  intro h
  have h2 := congrArg String.data h
  simp [noOutputMarker, String.data_append] at h2

/-- The dispatcher never raises; both failure shapes (missing provider
package, raised exception) come back as the empty string, for every
backend selector. -/
lemma call_llm_failure (prompt model api_key : String) (temperature : Rat)
    (outcome : ProviderOutcome) (h : outcome.isFailure = true) :
    call_llm prompt model api_key temperature outcome = "" := by
  cases outcome with
  | ok c => simp [ProviderOutcome.isFailure] at h
  | importError => unfold call_llm; split_ifs <;> rfl
  | exn m => unfold call_llm; split_ifs <;> rfl

lemma stepOutput_ne_empty (s : Settings) (pr : Nat → ProviderOutcome)
    (i : Nat) (prompt : String) : stepOutput s pr i prompt ≠ "" := by
  unfold stepOutput
  split_ifs with h1
  · exact localMarker_ne_empty i
  · simp only
    split_ifs with h2
    · exact noOutputMarker_ne_empty i
    · exact h2

lemma stepOutput_local (s : Settings) (pr : Nat → ProviderOutcome)
    (i : Nat) (prompt : String) (h : resolve_model s i = "local") :
    stepOutput s pr i prompt = localMarker i := by
  unfold stepOutput
  simp [h]

lemma stepOutput_failure (s : Settings) (pr : Nat → ProviderOutcome)
    (i : Nat) (prompt : String) (h : resolve_model s i ≠ "local")
    (hf : (pr i).isFailure = true) :
    stepOutput s pr i prompt = noOutputMarker i := by
  unfold stepOutput
  simp only [h, if_neg h]
  rw [call_llm_failure _ _ _ _ _ hf]
  simp

/-- A step that the `Settings` class declares a prompt for has index 1-5. -/
lemma step_prompt_some_bounds (s : Settings) (j : Nat) (pt : String)
    (h : step_prompt s j = some pt) : 1 ≤ j ∧ j ≤ 10 := by
  match j with
  | 0 => simp [step_prompt] at h
  | 1 | 2 | 3 | 4 | 5 => omega
  | n + 6 => simp [step_prompt] at h

lemma isConfiguredB_true (s : Settings) (j : Nat)
    (h : isConfiguredB s j = true) :
    ∃ pt, step_prompt s j = some pt ∧ pt ≠ "" := by
  unfold isConfiguredB at h
  cases h2 : step_prompt s j with
  | none => rw [h2] at h; simp at h
  | some pt =>
    rw [h2] at h
    refine ⟨pt, rfl, ?_⟩
    intro he
    simp [he] at h

/-! ### List access lemmas -/

lemma get?_append_lt {α : Type} (l l2 : List α) (n : Nat)
    (h : n < l.length) : (l ++ l2).get? n = l.get? n := by
  induction l generalizing n with
  | nil => simp at h
  | cons a rest ih =>
    cases n with
    | zero => rfl
    | succ m => simpa using ih m (by simpa using h)

lemma get?_append_len {α : Type} (l : List α) (a : α) :
    (l ++ [a]).get? l.length = some a := by
  induction l with
  | nil => rfl
  | cons b rest ih => simpa using ih

lemma lastOutput_cons (r : StepRecord) (l : List StepRecord)
    (d : Option String) :
    lastOutput (r :: l) d = lastOutput l (some r.output) := by
  cases l with
  | nil => rfl
  | cons r2 l2 =>
    unfold lastOutput
    rw [List.getLast?_cons_cons]
    cases hg : (r2 :: l2).getLast? with
    | some x => rfl
    | none =>
      rw [List.getLast?_eq_none_iff] at hg
      exact absurd hg (List.cons_ne_nil r2 l2)

/-- A property of all `get?`-reachable records extends to the last record. -/
lemma getLast?_of_get? {α : Type} (l : List α) (p : α → Prop)
    (hall : ∀ idx a, l.get? idx = some a → p a) :
    ∀ a, l.getLast? = some a → p a := by
  induction l with
  | nil => intro a h; simp at h
  | cons b rest ih =>
    intro a h
    cases rest with
    | nil =>
      simp [List.getLast?] at h
      exact h ▸ hall 0 b rfl
    | cons c rest2 =>
      rw [List.getLast?_cons_cons] at h
      exact ih (fun idx x hx => hall (idx + 1) x (by simpa using hx)) a h

/-! ### Loop-count lemmas -/

lemma completedFrom_zero (s : Settings) (a : Nat) :
    completedFrom s a 0 = 0 := rfl

lemma completedFrom_succ (s : Settings) (a r : Nat) :
    completedFrom s a (r + 1) =
    if isConfiguredB s a then completedFrom s (a + 1) r + 1 else 0 := rfl

lemma completedFrom_le (s : Settings) :
    ∀ (r a : Nat), completedFrom s a r ≤ r := by
  intro r
  induction r with
  | zero => intro a; simp [completedFrom]
  | succ n ih =>
    intro a
    unfold completedFrom
    split_ifs with h
    · exact Nat.succ_le_succ (ih (a + 1))
    · exact Nat.zero_le _

/-- When steps `a..i-1` are configured and step `i` is not, the loop
starting at `a` with at least `i - a` iterations available completes
exactly the steps `a..i-1`. -/
lemma completedFrom_stops (s : Settings) (i : Nat)
    (hunc : isConfiguredB s i = false) :
    ∀ (r a : Nat), a ≤ i → i ≤ a + r →
    (∀ j, a ≤ j → j < i → isConfiguredB s j = true) →
    completedFrom s a r = i - a := by
  intro r
  induction r with
  | zero => intro a h1 h2 _; simp only [completedFrom]; omega
  | succ n ih =>
    intro a h1 h2 hconf
    by_cases ha : a = i
    · subst ha
      unfold completedFrom
      rw [hunc]
      simp
    · have ha2 : a < i := by omega
      unfold completedFrom
      rw [hconf a (Nat.le_refl a) ha2]
      simp only [if_true]
      rw [ih (a + 1) (by omega) (by omega)
        (fun j hj1 hj2 => hconf j (by omega) hj2)]
      omega

/-- When all steps in range are configured, the loop runs to the full count. -/
lemma completedFrom_all (s : Settings) :
    ∀ (r a : Nat), (∀ j, a ≤ j → j < a + r → isConfiguredB s j = true) →
    completedFrom s a r = r := by
  intro r
  induction r with
  | zero => intro a _; rfl
  | succ n ih =>
    intro a hconf
    unfold completedFrom
    rw [hconf a (Nat.le_refl a) (by omega)]
    simp only [if_true]
    rw [ih (a + 1) (fun j hj1 hj2 => hconf j (by omega) (by omega))]

/-- A list of emissions whose `idx`-th channel is `step (a + idx)` has the
channel sequence `chanSeq a`. -/
lemma channels_eq_chanSeq (l : List Emission) :
    ∀ (a : Nat),
    (∀ idx e, l.get? idx = some e → e.channel = Channel.step (a + idx)) →
    l.map Emission.channel = chanSeq a l.length := by
  induction l with
  | nil => intro a _; rfl
  | cons e rest ih =>
    intro a h
    have h0 : e.channel = Channel.step a := by
      have h1 := h 0 e rfl
      simpa using h1
    have htail : ∀ idx x, rest.get? idx = some x →
        x.channel = Channel.step (a + 1 + idx) := by
      intro idx x hx
      have h1 := h (idx + 1) x (by simpa using hx)
      rw [h1]
      congr 1
      omega
    simp only [List.map_cons, List.length_cons, chanSeq, h0]
    rw [ih (a + 1) htail]

/-! ### The loop invariant -/

/-- Complete characterisation of one run of the step loop: it appends some
block `nr` of new records to the shared history and some block `ne` of new
emissions, one emission per record; records carry consecutive step indices
and non-empty outputs; each emission's frame is the projection of the source
frame under that step's overlay, and the history at its emission time is
exactly the prefix of the records completed so far; `previous_output` ends
as the last new output; and the loop stops only by exhausting the count or
at an unconfigured step. -/
lemma chainLoop_spec (f : Frame) (s : Settings) (pr : Nat → ProviderOutcome) :
    ∀ (r i : Nat) (prev : Option String) (cur : String)
      (hist : List StepRecord) (ems : List Emission),
    ∃ nr ne,
      (chainLoop f s pr r i prev cur hist ems).hist = hist ++ nr ∧
      (chainLoop f s pr r i prev cur hist ems).ems = ems ++ ne ∧
      ne.length = nr.length ∧
      nr.length = completedFrom s i r ∧
      (∀ idx rc, nr.get? idx = some rc →
        rc.step = i + idx ∧ rc.output ≠ "" ∧
        rc.model = resolve_model s (i + idx) ∧
        isConfiguredB s (i + idx) = true ∧
        (rc.model = "local" → rc.output = localMarker (i + idx)) ∧
        (rc.model ≠ "local" → (pr (i + idx)).isFailure = true →
          rc.output = noOutputMarker (i + idx))) ∧
      (∀ idx em, ne.get? idx = some em →
        em.channel = Channel.step (i + idx) ∧
        em.histAtEmit = hist ++ nr.take (idx + 1) ∧
        ∃ rc, nr.get? idx = some rc ∧
          em.frame = mkStepFrame f (i + idx) rc.output rc.prompt rc.model) ∧
      (chainLoop f s pr r i prev cur hist ems).prev = lastOutput nr prev ∧
      (nr.length = r ∨ isConfiguredB s (i + nr.length) = false) := by
  intro r
  induction r with
  | zero =>
    intro i prev cur hist ems
    refine ⟨[], [], by simp [chainLoop], by simp [chainLoop], rfl, rfl,
      ?_, ?_, rfl, Or.inl rfl⟩
    · intro idx rc h; simp at h
    · intro idx em h; simp at h
  | succ r ih =>
    intro i prev cur hist ems
    cases hpt : step_prompt s i with
    | none =>
      have hunc : isConfiguredB s i = false := by
        unfold isConfiguredB; rw [hpt]
      refine ⟨[], [], ?_, ?_, rfl, ?_, ?_, ?_, ?_, Or.inr (by simpa using hunc)⟩
      · simp [chainLoop, hpt]
      · simp [chainLoop, hpt]
      · simp [completedFrom, hunc]
      · intro idx rc h; simp at h
      · intro idx em h; simp at h
      · simp [chainLoop, hpt, lastOutput]
    | some pt =>
      by_cases hpt2 : pt = ""
      · have hunc : isConfiguredB s i = false := by
          unfold isConfiguredB; rw [hpt]; simp [hpt2]
        refine ⟨[], [], ?_, ?_, rfl, ?_, ?_, ?_, ?_,
          Or.inr (by simpa using hunc)⟩
        · simp [chainLoop, hpt, hpt2]
        · simp [chainLoop, hpt, hpt2]
        · simp [completedFrom, hunc]
        · intro idx rc h; simp at h
        · intro idx em h; simp at h
        · simp [chainLoop, hpt, hpt2, lastOutput]
      · -- the step completes
        have hconf : isConfiguredB s i = true := by
          unfold isConfiguredB; rw [hpt]; simp [hpt2]
        have hbounds : 1 ≤ i ∧ i ≤ 10 := step_prompt_some_bounds s i pt hpt
        have hloop :
            chainLoop f s pr (r + 1) i prev cur hist ems =
            chainLoop f s pr r (i + 1)
              (some (stepRecordOf s pr i pt prev cur).output)
              (stepRecordOf s pr i pt prev cur).output
              (hist ++ [stepRecordOf s pr i pt prev cur])
              (ems ++ [stepEmission f (stepRecordOf s pr i pt prev cur)
                (hist ++ [stepRecordOf s pr i pt prev cur])]) := by
          conv_lhs => rw [chainLoop]
          rw [hpt]
          simp [hpt2, hbounds]
        obtain ⟨nr2, ne2, ih1, ih2, ih3, ih4, ih5, ih6, ih7, ih8⟩ :=
          ih (i + 1) (some (stepRecordOf s pr i pt prev cur).output)
            (stepRecordOf s pr i pt prev cur).output
            (hist ++ [stepRecordOf s pr i pt prev cur])
            (ems ++ [stepEmission f (stepRecordOf s pr i pt prev cur)
              (hist ++ [stepRecordOf s pr i pt prev cur])])
        refine ⟨stepRecordOf s pr i pt prev cur :: nr2,
          stepEmission f (stepRecordOf s pr i pt prev cur)
            (hist ++ [stepRecordOf s pr i pt prev cur]) :: ne2,
          ?_, ?_, ?_, ?_, ?_, ?_, ?_, ?_⟩
        · rw [hloop, ih1]; simp
        · rw [hloop, ih2]; simp
        · simpa using ih3
        · simp only [List.length_cons, ih4, completedFrom_succ, hconf, if_true]
        · intro idx rc hrc
          cases idx with
          | zero =>
            simp only [List.get?] at hrc
            injection hrc with hrc
            subst hrc
            refine ⟨by simp [stepRecordOf], stepOutput_ne_empty s pr i _,
              by simp [stepRecordOf], by simpa using hconf, ?_, ?_⟩
            · intro hl
              simp only [stepRecordOf] at hl ⊢
              simpa using stepOutput_local s pr i _ hl
            · intro hl hfail
              simp only [stepRecordOf] at hl ⊢
              simpa using stepOutput_failure s pr i _ hl (by simpa using hfail)
          | succ idx2 =>
            have h2 := ih5 idx2 rc (by simpa using hrc)
            have harith : i + 1 + idx2 = i + (idx2 + 1) := by omega
            rw [harith] at h2
            exact h2
        · intro idx em hem
          cases idx with
          | zero =>
            simp only [List.get?] at hem
            injection hem with hem
            subst hem
            refine ⟨by simp [stepEmission, stepRecordOf], ?_, ?_⟩
            · simp [stepEmission]
            · exact ⟨stepRecordOf s pr i pt prev cur, rfl,
                by simp [stepEmission, stepRecordOf]⟩
          | succ idx2 =>
            obtain ⟨he1, he2, rc, hrc, he3⟩ := ih6 idx2 em (by simpa using hem)
            have harith : i + 1 + idx2 = i + (idx2 + 1) := by omega
            rw [harith] at he1 he3
            refine ⟨he1, ?_, rc, by simpa using hrc, he3⟩
            rw [he2]
            simp
        · rw [hloop, ih7, lastOutput_cons]
        · rcases ih8 with h8 | h8
          · exact Or.inl (by simp [h8])
          · refine Or.inr ?_
            have harith : i + 1 + nr2.length = i + (nr2.length + 1) := by omega
            rw [harith] at h8
            simpa using h8

/-! ### Overlay lookups -/

lemma stepOverlay_keys (i : Nat) (out prompt model : String) :
    (stepOverlay i out prompt model).map Prod.fst =
    overlayKeys (Channel.step i) := rfl

lemma finalOverlay_keys (num_steps : Nat) (final_output : String) :
    (finalOverlay num_steps final_output).map Prod.fst =
    overlayKeys Channel.final := rfl

lemma lookup_stepOverlay_step (od : List (String × PyVal)) (i : Nat)
    (out prompt model : String) :
    dlookup (dupdate od (stepOverlay i out prompt model)) "chain_step" =
    some (PyVal.int i) := by
  simp only [stepOverlay, dupdate_cons, dupdate_nil]
  rw [dlookup_dinsert_other _ _ _ _ (by decide),
    dlookup_dinsert_other _ _ _ _ (by decide),
    dlookup_dinsert_other _ _ _ _ (by decide),
    dlookup_dinsert_other _ _ _ _ (by decide),
    dlookup_dinsert_self]

lemma lookup_stepOverlay_output (od : List (String × PyVal)) (i : Nat)
    (out prompt model : String) :
    dlookup (dupdate od (stepOverlay i out prompt model)) "chain_output" =
    some (PyVal.str out) := by
  simp only [stepOverlay, dupdate_cons, dupdate_nil]
  rw [dlookup_dinsert_other _ _ _ _ (by decide),
    dlookup_dinsert_other _ _ _ _ (by decide),
    dlookup_dinsert_other _ _ _ _ (by decide),
    dlookup_dinsert_self]

lemma lookup_stepOverlay_prompt (od : List (String × PyVal)) (i : Nat)
    (out prompt model : String) :
    dlookup (dupdate od (stepOverlay i out prompt model)) "chain_prompt" =
    some (PyVal.str prompt) := by
  simp only [stepOverlay, dupdate_cons, dupdate_nil]
  rw [dlookup_dinsert_other _ _ _ _ (by decide),
    dlookup_dinsert_other _ _ _ _ (by decide),
    dlookup_dinsert_self]

lemma lookup_stepOverlay_model (od : List (String × PyVal)) (i : Nat)
    (out prompt model : String) :
    dlookup (dupdate od (stepOverlay i out prompt model)) "chain_model" =
    some (PyVal.str model) := by
  simp only [stepOverlay, dupdate_cons, dupdate_nil]
  rw [dlookup_dinsert_other _ _ _ _ (by decide), dlookup_dinsert_self]

lemma lookup_stepOverlay_history (od : List (String × PyVal)) (i : Nat)
    (out prompt model : String) :
    dlookup (dupdate od (stepOverlay i out prompt model)) "chain_history" =
    some PyVal.histRef := by
  simp only [stepOverlay, dupdate_cons, dupdate_nil]
  rw [dlookup_dinsert_self]

lemma lookup_finalOverlay_final_output (od : List (String × PyVal))
    (num_steps : Nat) (final_output : String) :
    dlookup (dupdate od (finalOverlay num_steps final_output))
      "chain_final_output" = some (PyVal.str final_output) := by
  simp only [finalOverlay, dupdate_cons, dupdate_nil]
  rw [dlookup_dinsert_other _ _ _ _ (by decide),
    dlookup_dinsert_other _ _ _ _ (by decide),
    dlookup_dinsert_other _ _ _ _ (by decide),
    dlookup_dinsert_self]

lemma lookup_finalOverlay_steps (od : List (String × PyVal))
    (num_steps : Nat) (final_output : String) :
    dlookup (dupdate od (finalOverlay num_steps final_output))
      "chain_steps" = some (PyVal.int num_steps) := by
  simp only [finalOverlay, dupdate_cons, dupdate_nil]
  rw [dlookup_dinsert_other _ _ _ _ (by decide),
    dlookup_dinsert_other _ _ _ _ (by decide),
    dlookup_dinsert_self]

lemma lookup_finalOverlay_history (od : List (String × PyVal))
    (num_steps : Nat) (final_output : String) :
    dlookup (dupdate od (finalOverlay num_steps final_output))
      "chain_history" = some PyVal.histRef := by
  simp only [finalOverlay, dupdate_cons, dupdate_nil]
  rw [dlookup_dinsert_other _ _ _ _ (by decide), dlookup_dinsert_self]

lemma lookup_finalOverlay_complete (od : List (String × PyVal))
    (num_steps : Nat) (final_output : String) :
    dlookup (dupdate od (finalOverlay num_steps final_output))
      "chain_complete" = some (PyVal.bool true) := by
  simp only [finalOverlay, dupdate_cons, dupdate_nil]
  rw [dlookup_dinsert_self]

/-! ### The executor characterisation -/

/-- Python `previous_output or input_text` coincides with "last completed output,
else the extracted input" because step outputs are never empty. -/
lemma pyOrStr_lastOutput (nr : List StepRecord) (input_text : String)
    (hne : ∀ idx rc, nr.get? idx = some rc → rc.output ≠ "") :
    pyOrStr (lastOutput nr Option.none) input_text =
    lastOutputStr nr input_text := by
  unfold lastOutput lastOutputStr pyOrStr
  cases hg : nr.getLast? with
  | none => rfl
  | some rc =>
    have hout := getLast?_of_get? nr (fun a => a.output ≠ "")
      (fun idx a h => hne idx a h) rc hg
    simp [hout]

/-- Shape of every successful run: the step emissions followed by exactly
one final emission, with all the per-step facts of `chainLoop_spec`
instantiated at the executor's starting state. -/
lemma chain_main_spec (s : Settings) (pr : Nat → ProviderOutcome) (f : Frame)
    (res : RunResult) (hres : chain_main s pr (some f) = res)
    (hok : res.outcome = Except.ok ()) :
    ∃ ne,
      res.emissions = ne ++ [Emission.mk Channel.final
        (projectFrame f (finalOverlay s.num_steps
          (lastOutputStr res.history res.input_text))) res.history] ∧
      ne.length = res.history.length ∧
      res.history.length = completedFrom s 1 s.num_steps ∧
      pyStrip res.input_text ≠ "" ∧
      extract_input_text f.other_data = Except.ok res.input_text ∧
      (∀ idx rc, res.history.get? idx = some rc →
        rc.step = 1 + idx ∧ rc.output ≠ "" ∧
        rc.model = resolve_model s (1 + idx) ∧
        isConfiguredB s (1 + idx) = true ∧
        (rc.model = "local" → rc.output = localMarker (1 + idx)) ∧
        (rc.model ≠ "local" → (pr (1 + idx)).isFailure = true →
          rc.output = noOutputMarker (1 + idx))) ∧
      (∀ idx em, ne.get? idx = some em →
        em.channel = Channel.step (1 + idx) ∧
        em.histAtEmit = res.history.take (idx + 1) ∧
        ∃ rc, res.history.get? idx = some rc ∧
          em.frame = mkStepFrame f (1 + idx) rc.output rc.prompt rc.model) ∧
      (res.history.length = s.num_steps ∨
        isConfiguredB s (1 + res.history.length) = false) := by
  simp only [chain_main] at hres
  cases hext : extract_input_text f.other_data with
  | error e =>
    rw [hext] at hres
    rw [← hres] at hok
    simp at hok
  | ok input_text =>
    rw [hext] at hres
    simp only [] at hres
    by_cases hstrip : pyStrip input_text = ""
    · rw [if_pos hstrip] at hres
      rw [← hres] at hok
      simp at hok
    · rw [if_neg hstrip] at hres
      obtain ⟨nr, ne, h1, h2, h3, h4, h5, h6, h7, h8⟩ :=
        chainLoop_spec f s pr s.num_steps 1 Option.none input_text [] []
      simp only [List.nil_append] at h1 h2
      have hhist : res.history = nr := by rw [← hres]; exact h1
      have hinput : res.input_text = input_text := by rw [← hres]
      have hems : res.emissions = ne ++ [Emission.mk Channel.final
          (projectFrame f (finalOverlay s.num_steps
            (pyOrStr (chainLoop f s pr s.num_steps 1 Option.none
              input_text [] []).prev input_text))) nr] := by
        rw [← hres]
        show (chainLoop f s pr s.num_steps 1 Option.none
            input_text [] []).ems ++ _ = _
        rw [h2, h1]
      refine ⟨ne, ?_, ?_, ?_, ?_, ?_, ?_, ?_, ?_⟩
      · rw [hhist, hinput, hems, h7, pyOrStr_lastOutput nr input_text
          (fun idx rc h => (h5 idx rc h).2.1)]
      · rw [hhist]; exact h3
      · rw [hhist]; exact h4
      · rw [hinput]; exact hstrip
      · rw [hinput]
      · rw [hhist]; exact h5
      · intro idx em hem
        obtain ⟨he1, he2, rc, hrc, he3⟩ := h6 idx em hem
        refine ⟨he1, ?_, rc, by rw [hhist]; exact hrc, he3⟩
        rw [he2, hhist]
        simp
      · rw [hhist]; exact h8

/-! ### Claims -/

/-- C5: `format_prompt` replaces every occurrence of the input placeholder
token with `input_text` and then every occurrence of the previous-output
placeholder token with `previous_output` when that is non-empty, and with
`input_text` when it is `None` or empty; in particular, with no previous
output the previous placeholder always degrades to the input text
(first-step degradation law). -/
theorem c5_format_prompt_substitution (t inp : String)
    (prev : Option String) :
    format_prompt t inp prev =
      pyReplace (pyReplace t "{input}" inp) "{previous}"
        (match prev with
         | some p => if p = "" then inp else p
         | Option.none => inp) ∧
    format_prompt t inp Option.none =
      pyReplace (pyReplace t "{input}" inp) "{previous}" inp := by
  constructor
  · cases prev with
    | none => rfl
    | some p =>
      by_cases hp : p = "" <;> simp [format_prompt, hp]
  · rfl

/-- C7: a `None` input frame, or an input frame whose extracted text is
empty after trimming, makes the executor raise (the `None`-frame exception
resp. the empty-input `ValueError`) before any yield, so the invocation
emits no frames at all. -/
theorem c7_input_validation (s : Settings) (pr : Nat → ProviderOutcome)
    (f : Frame) (t : String)
    (hext : extract_input_text f.other_data = Except.ok t)
    (htrim : pyStrip t = "") :
    (chain_main s pr Option.none).emissions = [] ∧
    (chain_main s pr Option.none).outcome =
      Except.error ChainErr.noneFrame ∧
    (chain_main s pr (some f)).emissions = [] ∧
    (chain_main s pr (some f)).outcome =
      Except.error ChainErr.emptyInput := by
  refine ⟨rfl, rfl, ?_, ?_⟩
  · simp only [chain_main]
    rw [hext]
    simp [htrim]
  · simp only [chain_main]
    rw [hext]
    simp [htrim]

/-- C7 witness: a frame whose message is whitespace only is rejected with
no emissions, as is a `None` frame. -/
theorem c7_input_validation_witness :
    (chain_main wSettings2 wProviderOk Option.none).emissions = [] ∧
    (chain_main wSettings2 wProviderOk Option.none).outcome =
      Except.error ChainErr.noneFrame ∧
    (chain_main wSettings2 wProviderOk (some wFrameBlank)).emissions = [] ∧
    (chain_main wSettings2 wProviderOk (some wFrameBlank)).outcome =
      Except.error ChainErr.emptyInput :=
  c7_input_validation wSettings2 wProviderOk wFrameBlank "  " rfl rfl

/-- C2: on a validated input with `num_steps = N` in `[1, 10]`, the run
emits the step frames on channels `step1 .. stepk` in strictly ascending
order followed by exactly one final frame, where `k`, the number of
completed steps, is at most `N` and is `N` itself unless the loop stopped
at an unconfigured step. -/
theorem c2_emission_shape (s : Settings) (pr : Nat → ProviderOutcome)
    (f : Frame) (res : RunResult)
    (h1 : 1 ≤ s.num_steps) (h10 : s.num_steps ≤ 10)
    (hres : chain_main s pr (some f) = res)
    (hok : res.outcome = Except.ok ()) :
    emissionChannels res =
      chanSeq 1 res.history.length ++ [Channel.final] ∧
    res.history.length ≤ s.num_steps ∧
    (res.history.length = s.num_steps ∨
      isConfiguredB s (1 + res.history.length) = false) := by
  obtain ⟨ne, hems, hlen, hcount, hstrip, hext, hrecs, hemprops, hterm⟩ :=
    chain_main_spec s pr f res hres hok
  refine ⟨?_, ?_, hterm⟩
  · unfold emissionChannels
    rw [hems]
    simp only [List.map_append, List.map_cons, List.map_nil]
    rw [channels_eq_chanSeq ne 1 (fun idx e he => (hemprops idx e he).1), hlen]
  · rw [hcount]
    exact completedFrom_le s s.num_steps 1

/-- C2 witness: the two-step all-local run completes both steps and emits
`step1, step2, final`. -/
theorem c2_emission_shape_witness :
    1 ≤ wSettings2.num_steps ∧ wSettings2.num_steps ≤ 10 ∧
    (emissionChannels (chain_main wSettings2 wProviderOk (some wFrame)) =
      chanSeq 1
        (chain_main wSettings2 wProviderOk (some wFrame)).history.length ++
        [Channel.final] ∧
    (chain_main wSettings2 wProviderOk (some wFrame)).history.length ≤
      wSettings2.num_steps ∧
    ((chain_main wSettings2 wProviderOk (some wFrame)).history.length =
      wSettings2.num_steps ∨
      isConfiguredB wSettings2
        (1 + (chain_main wSettings2 wProviderOk
          (some wFrame)).history.length) = false)) :=
  ⟨by decide, by decide,
    c2_emission_shape wSettings2 wProviderOk wFrame _
      (by decide) (by decide) rfl rfl⟩

/-- C1 counterexample: in the two-step run, the step-1 frame's
`chain_history` was a one-record list at emission time, but after the run
it resolves to the full two-record list — the step-2 append mutated the
list the step-1 frame holds, so the claimed length-1 snapshot is false. -/
theorem c1_counterexample :
    (observedHistory (chain_main wSettings2 wProviderOk (some wFrame)) 0).map
      List.length ≠ some 1 ∧
    emitTimeHistLen (chain_main wSettings2 wProviderOk (some wFrame)) 0 =
      some 1 ∧
    (observedHistory (chain_main wSettings2 wProviderOk (some wFrame)) 0).map
      List.length = some 2 :=
  ⟨by decide, rfl, by decide⟩

/-- C1 (amended): every step frame stores under `chain_history` a reference
to the execution's single shared `step_outputs` list (not a copy); at the
moment the frame for the `(idx+1)`-th completed step is emitted the list
holds exactly that step's prefix of `idx + 1` records in order, but all
emitted frames — step and final alike — alias the same list, so after the
run each of them observes the full history. -/
theorem c1_history_reference (s : Settings) (pr : Nat → ProviderOutcome)
    (f : Frame) (res : RunResult) (idx : Nat)
    (hres : chain_main s pr (some f) = res)
    (hok : res.outcome = Except.ok ())
    (hstep : idx + 1 ≤ res.history.length) :
    emissionData res idx "chain_history" = some PyVal.histRef ∧
    observedHistory res idx = some res.history ∧
    emitTimeHistLen res idx = some (idx + 1) ∧
    (res.emissions.get? idx).map Emission.histAtEmit =
      some (res.history.take (idx + 1)) ∧
    (res.emissions.get? idx).map Emission.channel =
      some (Channel.step (1 + idx)) ∧
    observedHistory res idx =
      observedHistory res (res.emissions.length - 1) := by
  obtain ⟨ne, hems, hlen, hcount, hstrip, hext, hrecs, hemprops, hterm⟩ :=
    chain_main_spec s pr f res hres hok
  have hidx : idx < ne.length := by omega
  cases hge : ne.get? idx with
  | none =>
    have := List.get?_eq_none.mp hge
    omega
  | some em =>
    obtain ⟨hch, hhist, rc, hrc, hfr⟩ := hemprops idx em hge
    have hget : res.emissions.get? idx = some em := by
      rw [hems, get?_append_lt _ _ _ hidx]
      exact hge
    have hlook : dlookup em.frame.other_data "chain_history" =
        some PyVal.histRef := by
      rw [hfr]
      simp only [mkStepFrame, projectFrame]
      exact lookup_stepOverlay_history _ _ _ _ _
    have hlast : res.emissions.length - 1 = ne.length := by
      rw [hems]; simp
    have hgetlast : res.emissions.get? ne.length =
        some (Emission.mk Channel.final
          (projectFrame f (finalOverlay s.num_steps
            (lastOutputStr res.history res.input_text))) res.history) := by
      rw [hems]
      exact get?_append_len _ _
    have hlentake : em.histAtEmit.length = idx + 1 := by
      rw [hhist, List.length_take]
      omega
    refine ⟨?_, ?_, ?_, ?_, ?_, ?_⟩
    · simp only [emissionData, hget]
      exact hlook
    · simp only [observedHistory, hget, hlook]
    · simp only [emitTimeHistLen]
      rw [hget]
      exact congrArg some hlentake
    · rw [hget]
      exact congrArg some hhist
    · rw [hget]
      exact congrArg some hch
    · have hobs1 : observedHistory res idx = some res.history := by
        simp only [observedHistory, hget, hlook]
      have hobs2 : observedHistory res (res.emissions.length - 1) =
          some res.history := by
        simp only [observedHistory, hlast, hgetlast, projectFrame,
          lookup_finalOverlay_history]
      rw [hobs1, hobs2]

/-- C1 witness: the amended statement instantiated at the step-1 frame of
the two-step run. -/
theorem c1_history_reference_witness :
    0 + 1 ≤ (chain_main wSettings2 wProviderOk (some wFrame)).history.length ∧
    (emissionData (chain_main wSettings2 wProviderOk (some wFrame)) 0
        "chain_history" = some PyVal.histRef ∧
      observedHistory (chain_main wSettings2 wProviderOk (some wFrame)) 0 =
        some (chain_main wSettings2 wProviderOk (some wFrame)).history ∧
      emitTimeHistLen (chain_main wSettings2 wProviderOk (some wFrame)) 0 =
        some (0 + 1) ∧
      ((chain_main wSettings2 wProviderOk (some wFrame)).emissions.get? 0).map
          Emission.histAtEmit =
        some ((chain_main wSettings2 wProviderOk
          (some wFrame)).history.take (0 + 1)) ∧
      ((chain_main wSettings2 wProviderOk (some wFrame)).emissions.get? 0).map
          Emission.channel = some (Channel.step (1 + 0)) ∧
      observedHistory (chain_main wSettings2 wProviderOk (some wFrame)) 0 =
        observedHistory (chain_main wSettings2 wProviderOk (some wFrame))
          ((chain_main wSettings2 wProviderOk
            (some wFrame)).emissions.length - 1)) :=
  ⟨by decide,
    c1_history_reference wSettings2 wProviderOk wFrame _ 0 rfl rfl (by decide)⟩

/-- C4: when steps `1..i-1` are configured, `i ≤ num_steps`, and step `i`'s
prompt is unset or empty, the run halts at step `i` with no record and no
frame for step `i`: the history has exactly `i-1` records, only channels
`step1..step(i-1)` fire before the single final frame, and that final frame
carries `chain_steps = num_steps` and the `i-1`-record history. -/
theorem c4_unconfigured_halt (s : Settings) (pr : Nat → ProviderOutcome)
    (f : Frame) (res : RunResult) (i : Nat)
    (h1 : 1 ≤ i) (h2 : i ≤ s.num_steps)
    (hconf : ∀ j, 1 ≤ j → j < i → isConfiguredB s j = true)
    (hunc : isConfiguredB s i = false)
    (hres : chain_main s pr (some f) = res)
    (hok : res.outcome = Except.ok ()) :
    res.history.length = i - 1 ∧
    emissionChannels res = chanSeq 1 (i - 1) ++ [Channel.final] ∧
    emissionData res (res.emissions.length - 1) "chain_steps" =
      some (PyVal.int s.num_steps) ∧
    observedHistory res (res.emissions.length - 1) = some res.history := by
  obtain ⟨ne, hems, hlen, hcount, hstrip, hext, hrecs, hemprops, hterm⟩ :=
    chain_main_spec s pr f res hres hok
  have hcf : completedFrom s 1 s.num_steps = i - 1 :=
    completedFrom_stops s i hunc s.num_steps 1 h1 (by omega) hconf
  have hl : res.history.length = i - 1 := by rw [hcount, hcf]
  have hlast : res.emissions.length - 1 = ne.length := by
    rw [hems]; simp
  have hgetlast : res.emissions.get? ne.length =
      some (Emission.mk Channel.final
        (projectFrame f (finalOverlay s.num_steps
          (lastOutputStr res.history res.input_text))) res.history) := by
    rw [hems]
    exact get?_append_len _ _
  refine ⟨hl, ?_, ?_, ?_⟩
  · unfold emissionChannels
    rw [hems]
    simp only [List.map_append, List.map_cons, List.map_nil]
    rw [channels_eq_chanSeq ne 1 (fun idx e he => (hemprops idx e he).1),
      hlen, hl]
  · simp only [emissionData, hlast, hgetlast, projectFrame,
      lookup_finalOverlay_steps]
  · simp only [observedHistory, hlast, hgetlast, projectFrame,
      lookup_finalOverlay_history]

/-- C4 witness: scenario B — `num_steps = 3` with step 2's prompt unset
gives one step frame, then a final frame with `chain_steps = 3` and a
one-record history. -/
theorem c4_unconfigured_halt_witness :
    (1 ≤ 2 ∧ 2 ≤ wSettingsB.num_steps ∧
      isConfiguredB wSettingsB 2 = false) ∧
    ((chain_main wSettingsB wProviderOk (some wFrame)).history.length =
      2 - 1 ∧
    emissionChannels (chain_main wSettingsB wProviderOk (some wFrame)) =
      chanSeq 1 (2 - 1) ++ [Channel.final] ∧
    emissionData (chain_main wSettingsB wProviderOk (some wFrame))
      ((chain_main wSettingsB wProviderOk
        (some wFrame)).emissions.length - 1) "chain_steps" =
      some (PyVal.int wSettingsB.num_steps) ∧
    observedHistory (chain_main wSettingsB wProviderOk (some wFrame))
      ((chain_main wSettingsB wProviderOk
        (some wFrame)).emissions.length - 1) =
      some (chain_main wSettingsB wProviderOk (some wFrame)).history) :=
  ⟨⟨by decide, by decide, by decide⟩,
    c4_unconfigured_halt wSettingsB wProviderOk wFrame _ 2
      (by decide) (by decide)
      (by intro j hj1 hj2
          have hj : j = 1 := by omega
          subst hj
          decide)
      (by decide) rfl rfl⟩

/-- C8: every terminal frame's `chain_final_output` is the last completed
step's output, or the originally extracted input text when no step
completed, and that value is never the empty string; the terminal frame is
the last emission. -/
theorem c8_final_output (s : Settings) (pr : Nat → ProviderOutcome)
    (f : Frame) (res : RunResult)
    (hres : chain_main s pr (some f) = res)
    (hok : res.outcome = Except.ok ()) :
    emissionData res (res.emissions.length - 1) "chain_final_output" =
      some (PyVal.str (lastOutputStr res.history res.input_text)) ∧
    lastOutputStr res.history res.input_text ≠ "" ∧
    (emissionChannels res).getLast? = some Channel.final := by
  obtain ⟨ne, hems, hlen, hcount, hstrip, hext, hrecs, hemprops, hterm⟩ :=
    chain_main_spec s pr f res hres hok
  have hlast : res.emissions.length - 1 = ne.length := by
    rw [hems]; simp
  have hgetlast : res.emissions.get? ne.length =
      some (Emission.mk Channel.final
        (projectFrame f (finalOverlay s.num_steps
          (lastOutputStr res.history res.input_text))) res.history) := by
    rw [hems]
    exact get?_append_len _ _
  refine ⟨?_, ?_, ?_⟩
  · simp only [emissionData, hlast, hgetlast, projectFrame,
      lookup_finalOverlay_final_output]
  · unfold lastOutputStr
    cases hg : res.history.getLast? with
    | some rc =>
      exact getLast?_of_get? res.history (fun a => a.output ≠ "")
        (fun idx a h => (hrecs idx a h).2.1) rc hg
    | none =>
      show res.input_text ≠ ""
      intro he
      rw [he] at hstrip
      exact hstrip rfl
  · unfold emissionChannels
    rw [hems, List.map_append]
    simp [List.getLast?_concat]

/-- C8 witness: scenario A — one local step on input "Hello": the step
frame's `chain_output` and the final frame's `chain_final_output` both
equal the pending-local marker. -/
theorem c8_final_output_witness :
    emissionData (chain_main wSettings1 wProviderOk (some wFrame)) 0
      "chain_output" =
      some (PyVal.str "[Step 1 output - requires LLM element]") ∧
    lastOutputStr (chain_main wSettings1 wProviderOk (some wFrame)).history
      (chain_main wSettings1 wProviderOk (some wFrame)).input_text =
      "[Step 1 output - requires LLM element]" ∧
    emissionChannels (chain_main wSettings1 wProviderOk (some wFrame)) =
      [Channel.step 1, Channel.final] ∧
    (emissionData (chain_main wSettings1 wProviderOk (some wFrame))
      ((chain_main wSettings1 wProviderOk
        (some wFrame)).emissions.length - 1) "chain_final_output" =
      some (PyVal.str (lastOutputStr
        (chain_main wSettings1 wProviderOk (some wFrame)).history
        (chain_main wSettings1 wProviderOk (some wFrame)).input_text)) ∧
    lastOutputStr (chain_main wSettings1 wProviderOk (some wFrame)).history
      (chain_main wSettings1 wProviderOk (some wFrame)).input_text ≠ "" ∧
    (emissionChannels (chain_main wSettings1 wProviderOk
      (some wFrame))).getLast? = some Channel.final) :=
  ⟨rfl, rfl, rfl, c8_final_output wSettings1 wProviderOk wFrame _ rfl rfl⟩

/-- C6: for non-local backends the dispatcher converts both failure shapes
(missing provider package, raised exception) to the empty string instead of
raising; the executor then records the literal no-output marker as that
step's output and proceeds — the number of completed steps is a function of
the settings alone — and no recorded step output is ever empty. -/
theorem c6_dispatcher_failure_recovery (s : Settings)
    (pr : Nat → ProviderOutcome) (f : Frame) (res : RunResult)
    (p m k : String) (temp : Rat) (oc : ProviderOutcome) (idx : Nat)
    (hres : chain_main s pr (some f) = res)
    (hok : res.outcome = Except.ok ())
    (hidx : idx < res.history.length) :
    (m ≠ "local" → oc.isFailure = true → call_llm p m k temp oc = "") ∧
    historyOutput res idx ≠ some "" ∧
    (historyModel res idx ≠ some "local" →
      (pr (1 + idx)).isFailure = true →
      historyOutput res idx = some (noOutputMarker (1 + idx))) ∧
    res.history.length = completedFrom s 1 s.num_steps := by
  obtain ⟨ne, hems, hlen, hcount, hstrip, hext, hrecs, hemprops, hterm⟩ :=
    chain_main_spec s pr f res hres hok
  cases hrc : res.history.get? idx with
  | none =>
    have := List.get?_eq_none.mp hrc
    omega
  | some rc =>
    obtain ⟨hstep, hout, hmodel, hconf2, hlocal, hfail⟩ := hrecs idx rc hrc
    refine ⟨fun _ hf => call_llm_failure p m k temp oc hf, ?_, ?_, hcount⟩
    · simp only [historyOutput, hrc]
      intro hc
      exact hout (Option.some.inj hc)
    · intro hm hf
      simp only [historyModel, hrc] at hm
      have hm2 : rc.model ≠ "local" := fun hh => hm (congrArg some hh)
      simp only [historyOutput, hrc]
      exact congrArg some (hfail hm2 hf)

/-- C6 witness: step 1 dispatches to the hosted provider and the call
raises; that step's output becomes the literal no-output marker and step 2
still runs. -/
theorem c6_dispatcher_failure_recovery_witness :
    0 < (chain_main wSettingsFail wProviderFail (some wFrame)).history.length ∧
    historyOutput (chain_main wSettingsFail wProviderFail (some wFrame)) 0 =
      some "[Step 1 - no output]" ∧
    (chain_main wSettingsFail wProviderFail
      (some wFrame)).history.length = 2 ∧
    (("openai" ≠ "local" → (ProviderOutcome.exn "boom").isFailure = true →
        call_llm "x" "openai" "" (7 / 10) (ProviderOutcome.exn "boom") = "") ∧
      historyOutput (chain_main wSettingsFail wProviderFail
        (some wFrame)) 0 ≠ some "" ∧
      (historyModel (chain_main wSettingsFail wProviderFail
          (some wFrame)) 0 ≠ some "local" →
        (wProviderFail (1 + 0)).isFailure = true →
        historyOutput (chain_main wSettingsFail wProviderFail
          (some wFrame)) 0 = some (noOutputMarker (1 + 0))) ∧
      (chain_main wSettingsFail wProviderFail (some wFrame)).history.length =
        completedFrom wSettingsFail 1 wSettingsFail.num_steps) :=
  ⟨by decide, rfl, rfl,
    c6_dispatcher_failure_recovery wSettingsFail wProviderFail wFrame _
      "x" "openai" "" (7 / 10) (ProviderOutcome.exn "boom") 0
      rfl rfl (by decide)⟩

/-- C9: every emitted frame's side-channel mapping extends the input
frame's: every original key stays present, keys outside that frame's
overlay keys keep their original values, and all overlay keys are present
(added or overwritten). -/
theorem c9_overlay_superset (s : Settings) (pr : Nat → ProviderOutcome)
    (f : Frame) (res : RunResult) (idx : Nat) (k : String)
    (hres : chain_main s pr (some f) = res)
    (hok : res.outcome = Except.ok ())
    (hidx : idx < res.emissions.length) :
    ((dlookup f.other_data k).isSome = true →
      (emissionData res idx k).isSome = true) ∧
    (k ∉ overlayKeysAt res idx →
      emissionData res idx k = dlookup f.other_data k) ∧
    overlayPresentB res idx = true := by
  obtain ⟨ne, hems, hlen, hcount, hstrip, hext, hrecs, hemprops, hterm⟩ :=
    chain_main_spec s pr f res hres hok
  have hlen2 : res.emissions.length = ne.length + 1 := by
    rw [hems]; simp
  by_cases hi : idx < ne.length
  · cases hge : ne.get? idx with
    | none =>
      have := List.get?_eq_none.mp hge
      omega
    | some em =>
      obtain ⟨hch, hhist, rc, hrc, hfr⟩ := hemprops idx em hge
      have hget : res.emissions.get? idx = some em := by
        rw [hems, get?_append_lt _ _ _ hi]
        exact hge
      have hdata : ∀ k2, emissionData res idx k2 =
          dlookup (dupdate f.other_data
            (stepOverlay (1 + idx) rc.output rc.prompt rc.model)) k2 := by
        intro k2
        simp only [emissionData, hget, hfr, mkStepFrame, projectFrame]
      have hkeys : overlayKeysAt res idx =
          overlayKeys (Channel.step (1 + idx)) := by
        simp only [overlayKeysAt, hget, hch]
      refine ⟨?_, ?_, ?_⟩
      · intro hk
        rw [hdata k]
        exact dlookup_dupdate_isSome _ _ _ hk
      · intro hk
        rw [hkeys] at hk
        rw [hdata k]
        exact dlookup_dupdate_not_mem _ _ _ (by rwa [stepOverlay_keys])
      · unfold overlayPresentB
        rw [hkeys]
        simp [overlayKeys, hdata, lookup_stepOverlay_step,
          lookup_stepOverlay_output, lookup_stepOverlay_prompt,
          lookup_stepOverlay_model, lookup_stepOverlay_history]
  · have hieq : idx = ne.length := by omega
    subst hieq
    have hget : res.emissions.get? ne.length =
        some (Emission.mk Channel.final
          (projectFrame f (finalOverlay s.num_steps
            (lastOutputStr res.history res.input_text))) res.history) := by
      rw [hems]
      exact get?_append_len _ _
    have hdata : ∀ k2, emissionData res ne.length k2 =
        dlookup (dupdate f.other_data (finalOverlay s.num_steps
          (lastOutputStr res.history res.input_text))) k2 := by
      intro k2
      simp only [emissionData, hget, projectFrame]
    have hkeys : overlayKeysAt res ne.length = overlayKeys Channel.final := by
      simp only [overlayKeysAt, hget]
    refine ⟨?_, ?_, ?_⟩
    · intro hk
      rw [hdata k]
      exact dlookup_dupdate_isSome _ _ _ hk
    · intro hk
      rw [hkeys] at hk
      rw [hdata k]
      exact dlookup_dupdate_not_mem _ _ _ (by rwa [finalOverlay_keys])
    · unfold overlayPresentB
      rw [hkeys]
      simp [overlayKeys, hdata, lookup_finalOverlay_final_output,
        lookup_finalOverlay_steps, lookup_finalOverlay_history,
        lookup_finalOverlay_complete]

/-- C9 witness: in the two-step run the step-1 frame keeps the unrelated
original key `extra` with its value, and carries every overlay key. -/
theorem c9_overlay_superset_witness :
    0 < (chain_main wSettings2 wProviderOk (some wFrame)).emissions.length ∧
    emissionData (chain_main wSettings2 wProviderOk (some wFrame)) 0
      "extra" = some (PyVal.int 5) ∧
    (((dlookup wFrame.other_data "extra").isSome = true →
      (emissionData (chain_main wSettings2 wProviderOk (some wFrame)) 0
        "extra").isSome = true) ∧
    ("extra" ∉ overlayKeysAt (chain_main wSettings2 wProviderOk
        (some wFrame)) 0 →
      emissionData (chain_main wSettings2 wProviderOk (some wFrame)) 0
        "extra" = dlookup wFrame.other_data "extra") ∧
    overlayPresentB (chain_main wSettings2 wProviderOk (some wFrame)) 0 =
      true) :=
  ⟨by decide, rfl,
    c9_overlay_superset wSettings2 wProviderOk wFrame _ 0 "extra"
      rfl rfl (by decide)⟩

/-- C10: per-step settings that the class does not declare resolve to the
documented defaults — backend `local`, credential `""`, temperature `0.7` —
and steps whose prompt is configured still execute: with five configured
prompts and `num_steps = 5`, steps 4 and 5 (which have no api-key or
temperature setting) run. -/
theorem c10_missing_settings_defaults (s : Settings)
    (pr : Nat → ProviderOutcome) (f : Frame) (res : RunResult)
    (h5 : s.num_steps = 5)
    (hconf : ∀ j, 1 ≤ j → j ≤ 5 → isConfiguredB s j = true)
    (hres : chain_main s pr (some f) = res)
    (hok : res.outcome = Except.ok ()) :
    step_api_key s 4 = Option.none ∧ step_temperature s 4 = Option.none ∧
    step_api_key s 5 = Option.none ∧ step_temperature s 5 = Option.none ∧
    resolve_api_key s 4 = "" ∧ resolve_temperature s 4 = 7 / 10 ∧
    resolve_api_key s 5 = "" ∧ resolve_temperature s 5 = 7 / 10 ∧
    step_model s 6 = Option.none ∧ resolve_model s 6 = "local" ∧
    res.history.length = 5 ∧
    (res.emissions.get? 3).map Emission.channel = some (Channel.step 4) ∧
    (res.emissions.get? 4).map Emission.channel = some (Channel.step 5) := by
  obtain ⟨ne, hems, hlen, hcount, hstrip, hext, hrecs, hemprops, hterm⟩ :=
    chain_main_spec s pr f res hres hok
  have hfull : res.history.length = 5 := by
    rw [hcount, h5]
    exact completedFrom_all s 5 1 (fun j hj1 hj2 => hconf j hj1 (by omega))
  have hchan : ∀ n, n < ne.length →
      (res.emissions.get? n).map Emission.channel =
      some (Channel.step (1 + n)) := by
    intro n hn
    cases hge : ne.get? n with
    | none =>
      have := List.get?_eq_none.mp hge
      omega
    | some em =>
      have hget : res.emissions.get? n = some em := by
        rw [hems, get?_append_lt _ _ _ hn]
        exact hge
      rw [hget]
      exact congrArg some (hemprops n em hge).1
  refine ⟨rfl, rfl, rfl, rfl, rfl, rfl, rfl, rfl, rfl, rfl, hfull,
    hchan 3 (by omega), hchan 4 (by omega)⟩

/-- C10 witness: the five-step all-configured run. -/
theorem c10_missing_settings_defaults_witness :
    wSettings5.num_steps = 5 ∧
    (step_api_key wSettings5 4 = Option.none ∧
    step_temperature wSettings5 4 = Option.none ∧
    step_api_key wSettings5 5 = Option.none ∧
    step_temperature wSettings5 5 = Option.none ∧
    resolve_api_key wSettings5 4 = "" ∧
    resolve_temperature wSettings5 4 = 7 / 10 ∧
    resolve_api_key wSettings5 5 = "" ∧
    resolve_temperature wSettings5 5 = 7 / 10 ∧
    step_model wSettings5 6 = Option.none ∧
    resolve_model wSettings5 6 = "local" ∧
    (chain_main wSettings5 wProviderOk (some wFrame)).history.length = 5 ∧
    ((chain_main wSettings5 wProviderOk (some wFrame)).emissions.get? 3).map
      Emission.channel = some (Channel.step 4) ∧
    ((chain_main wSettings5 wProviderOk (some wFrame)).emissions.get? 4).map
      Emission.channel = some (Channel.step 5)) :=
  ⟨rfl,
    c10_missing_settings_defaults wSettings5 wProviderOk wFrame _ rfl
      (by intro j h1 h2
          interval_cases j <;> decide)
      rfl rfl⟩

/-- C3 is contradicted by the code itself: although the element's
description documents up to 10 configurable steps and `num_steps` ranges to
10, the `Settings` class declares no attribute at all for steps 6-10 and no
api-key or temperature attribute for steps 4-5, so a 6-step chain halts
after step 5 even with every declarable prompt configured. -/
theorem c3_settings_surface_gap :
    (∀ s : Settings, step_prompt s 6 = Option.none ∧
      step_model s 6 = Option.none ∧
      step_api_key s 4 = Option.none ∧
      step_temperature s 4 = Option.none ∧
      step_api_key s 5 = Option.none ∧
      step_temperature s 5 = Option.none) ∧
    wSettings6.num_steps = 6 ∧
    (chain_main wSettings6 wProviderOk (some wFrame)).outcome =
      Except.ok () ∧
    (chain_main wSettings6 wProviderOk (some wFrame)).history.length = 5 :=
  ⟨fun s => ⟨rfl, rfl, rfl, rfl, rfl, rfl⟩, rfl, rfl, by decide⟩

end Chain
